import Mathlib

/-!
Verification of the spdlog file-rotation sinks (`include/spdlog/sinks/file_sinks.h`):
the filename split performed by the sink constructors, the size-triggered
rotation of `rotating_file_sink` (`_sink_it` / `_rotate`), and the
time-triggered rotation of `daily_file_sink` (`_sink_it` / `_next_rotation_tp`).

Filenames and log records are modelled as `List Char`; instants as seconds
since the epoch 1970-01-01T00:00:00 (`Nat`).  The file capability
(`details::file_helper`) and the calendar capability (`os::localtime` /
`std::mktime`) are not part of the translation unit under verification and are
modelled from the specification's capability contracts.
-/

/-- The character the `fmt` decimal formatter emits for the digit `d`. -/
def digitChar (d : Nat) : Char := Char.ofNat (48 + d)

/-- Fuel-indexed decimal digits of `n` (most significant first, empty for 0). -/
def decReprAux : Nat → Nat → List Char
  | 0, _ => []
  | fuel + 1, n => if n = 0 then [] else decReprAux fuel (n / 10) ++ [digitChar (n % 10)]

/-- Decimal representation of `n`, as the `fmt` `{}` formatter prints a
`std::size_t` (used for the backup index inside `calc_filename`). -/
def decRepr (n : Nat) : List Char := if n = 0 then ['0'] else decReprAux n n

/-- Numeric value of a decimal digit string (left fold). -/
def decVal (l : List Char) : Nat := l.foldl (fun acc c => acc * 10 + (c.toNat - 48)) 0

theorem decVal_append (l : List Char) (c : Char) :
    decVal (l ++ [c]) = decVal l * 10 + (c.toNat - 48) := by
  unfold decVal
  rw [List.foldl_append]
  rfl

theorem digitChar_toNat (d : Nat) (h : d < 10) : (digitChar d).toNat = 48 + d := by
  interval_cases d <;> decide

theorem decReprAux_val : ∀ (fuel n : Nat), n ≠ 0 → n ≤ fuel →
    decVal (decReprAux fuel n) = n := by
  intro fuel
  induction fuel with
  | zero => intro n h1 h2; omega
  | succ fuel ih =>
    intro n h1 h2
    rw [decReprAux, if_neg h1, decVal_append, digitChar_toNat (n % 10) (by omega)]
    by_cases hq : n / 10 = 0
    · rw [hq]
      have hbase : decVal (decReprAux fuel 0) = 0 := by
        cases fuel <;> simp [decReprAux, decVal]
      rw [hbase]
      omega
    · rw [ih (n / 10) hq (by omega)]
      omega

theorem decRepr_val (n : Nat) : decVal (decRepr n) = n := by
  unfold decRepr
  by_cases h : n = 0
  · rw [if_pos h, h]; decide
  · rw [if_neg h]
    exact decReprAux_val n n h le_rfl

theorem decRepr_inj {m n : Nat} (h : decRepr m = decRepr n) : m = n := by
  have := congrArg decVal h
  rwa [decRepr_val, decRepr_val] at this

theorem decReprAux_ne_nil (n : Nat) (h : n ≠ 0) : decReprAux n n ≠ [] := by
  cases n with
  | zero => omega
  | succ k =>
    rw [decReprAux, if_neg h]
    simp

theorem decRepr_ne_nil (n : Nat) : decRepr n ≠ [] := by
  unfold decRepr
  by_cases h : n = 0
  · rw [if_pos h]; simp
  · rw [if_neg h]; exact decReprAux_ne_nil n h

/-- `std::basic_string<..>::npos` for a 64-bit `size_t`. -/
def npos : Nat := 2 ^ 64 - 1

/-- `filename.find_last_of(c)`: index of the last occurrence of `c`, or `npos`. -/
def find_last_of (s : List Char) (c : Char) : Nat :=
  match s.reverse.findIdx? (fun x => x == c) with
  | some k => s.length - 1 - k
  | none => npos

/-- The split performed by the `rotating_file_sink` filename constructor
(`file_sinks.h` lines 78-92): locate the last `.`, `\` and `/`; the guarded
branch supplies default extension `log`, otherwise the name is cut at `ndx`.
`substr(ndx + 1)` is taken with `size_t` wrap-around (`npos + 1 = 0`). -/
def rotatingSplit (filename : List Char) : List Char × List Char :=
  let ndx := find_last_of filename '.'
  let ndxs1 := find_last_of filename '\\'
  let ndxs2 := find_last_of filename '/'
  if ndx = npos ∧ (ndx < ndxs1 ∨ ndx < ndxs2) then
    (filename, ['l', 'o', 'g'])
  else
    (filename.take ndx, filename.drop ((ndx + 1) % 2 ^ 64))

/-- The split performed by the `daily_file_sink` filename constructor
(`file_sinks.h` lines 247-261); its guard reads `(ndxs2 < ndx || ndxs2 < ndx)`
with the disjunct duplicated, exactly as in the source. -/
def dailySplit (filename : List Char) : List Char × List Char :=
  let ndx := find_last_of filename '.'
  let ndxs2 := find_last_of filename '/'
  if ndx = npos ∧ (ndxs2 < ndx ∨ ndxs2 < ndx) then
    (filename, ['t', 'x', 't'])
  else
    (filename.take ndx, filename.drop ((ndx + 1) % 2 ^ 64))

/-- The path `a.b/c`: its only dot lies inside a directory segment. -/
def pathDotInDir : List Char := ['a', '.', 'b', '/', 'c']
/-- Modelled from the spec: the calendar capability ("localtimeNow" and conversion
between calendar fields and an instant) is external to the repository (libc
`localtime`/`mktime`); the spec only requires a correct proleptic Gregorian
calendar. Century index within a 400-year era of calendar days. -/
def centOf (doe : Nat) : Nat := (doe - doe / 146096) / 36524

/-- Modelled from the spec: days remaining within the century. -/
def rem1Of (doe : Nat) : Nat := doe - centOf doe * 36524

/-- Modelled from the spec: quadrennium index within the century. -/
def quadOf (doe : Nat) : Nat := rem1Of doe / 1461

/-- Modelled from the spec: days remaining within the quadrennium. -/
def rem2Of (doe : Nat) : Nat := rem1Of doe - quadOf doe * 1461

/-- Modelled from the spec: year index within the quadrennium. -/
def yrOf (doe : Nat) : Nat := (rem2Of doe - rem2Of doe / 1460) / 365

/-- Modelled from the spec: day of the (March-based) year. -/
def doyOf (doe : Nat) : Nat := rem2Of doe - yrOf doe * 365

/-- Modelled from the spec: year of the 400-year era. -/
def yoeOf (doe : Nat) : Nat := centOf doe * 100 + quadOf doe * 4 + yrOf doe

/-- Modelled from the spec: March-based month index (0 = March .. 11 = February). -/
def mpOf (doe : Nat) : Nat := (5 * doyOf doe + 2) / 153

/-- Modelled from the spec: day of month. -/
def mdayOf (doe : Nat) : Nat := doyOf doe - (153 * mpOf doe + 2) / 5 + 1

/-- Modelled from the spec: civil month (1 = January .. 12 = December). -/
def monthOf (doe : Nat) : Nat := if mpOf doe < 10 then mpOf doe + 3 else mpOf doe - 9

/-- Modelled from the spec: calendar fields (year, month, day) of a day count
since the epoch 1970-01-01, proleptic Gregorian. -/
def civilFromDays (days : Nat) : Nat × Nat × Nat :=
  let z := days + 719468
  let era := z / 146097
  let doe := z % 146097
  (if monthOf doe ≤ 2 then yoeOf doe + era * 400 + 1 else yoeOf doe + era * 400,
   monthOf doe, mdayOf doe)

/-- Modelled from the spec: day count since epoch 1970-01-01 of the calendar date
`(y, m, d)`, proleptic Gregorian (inverse of `civilFromDays`). -/
def daysFromCivil (y m d : Nat) : Nat :=
  let y2 := if m ≤ 2 then y - 1 else y
  let era := y2 / 400
  let yoe := y2 - era * 400
  let doy := (153 * (if 2 < m then m - 3 else m + 9) + 2) / 5 + d - 1
  let doe := yoe * 365 + yoe / 4 - yoe / 100 + doy
  era * 146097 + doe - 719468


theorem centOf_spec (doe : Nat) (h : doe ≤ 146096) :
    centOf doe ≤ 3 ∧ centOf doe * 36524 ≤ doe ∧ rem1Of doe ≤ 36524 ∧
      36524 * centOf doe + rem1Of doe = doe := by
  unfold rem1Of centOf
  omega

theorem quadOf_spec (doe : Nat) (h : doe ≤ 146096) :
    quadOf doe ≤ 24 ∧ rem2Of doe ≤ 1460 ∧ 1461 * quadOf doe + rem2Of doe = rem1Of doe := by
  have h1 := centOf_spec doe h
  unfold rem2Of quadOf
  omega

theorem yrOf_spec (doe : Nat) (h : doe ≤ 146096) :
    yrOf doe ≤ 3 ∧ doyOf doe ≤ 365 ∧ 365 * yrOf doe + doyOf doe = rem2Of doe := by
  have h1 := quadOf_spec doe h
  unfold doyOf yrOf
  omega

theorem yoeOf_spec (doe : Nat) (h : doe ≤ 146096) :
    yoeOf doe ≤ 399 ∧ yoeOf doe / 4 = centOf doe * 25 + quadOf doe ∧
      yoeOf doe / 100 = centOf doe ∧
      365 * yoeOf doe + yoeOf doe / 4 - yoeOf doe / 100 + doyOf doe = doe := by
  have h1 := centOf_spec doe h
  have h2 := quadOf_spec doe h
  have h3 := yrOf_spec doe h
  have he : (centOf doe * 100 + quadOf doe * 4 + yrOf doe) / 4
      = centOf doe * 25 + quadOf doe := by
    rw [show centOf doe * 100 + quadOf doe * 4 + yrOf doe
        = 4 * (centOf doe * 25 + quadOf doe) + yrOf doe by ring]
    rw [Nat.mul_add_div (by norm_num), Nat.div_eq_of_lt (by omega)]
    omega
  have hf : (centOf doe * 100 + quadOf doe * 4 + yrOf doe) / 100 = centOf doe := by
    rw [show centOf doe * 100 + quadOf doe * 4 + yrOf doe
        = 100 * centOf doe + (quadOf doe * 4 + yrOf doe) by ring]
    rw [Nat.mul_add_div (by norm_num), Nat.div_eq_of_lt (by omega)]
    omega
  unfold yoeOf
  omega

theorem mpOf_spec (doe : Nat) (h : doe ≤ 146096) :
    mpOf doe ≤ 11 ∧ (153 * mpOf doe + 2) / 5 ≤ doyOf doe ∧
      (153 * mpOf doe + 2) / 5 + mdayOf doe - 1 = doyOf doe ∧ 1 ≤ mdayOf doe := by
  have h1 := yrOf_spec doe h
  unfold mdayOf mpOf
  omega

theorem monthOf_spec (doe : Nat) (h : doe ≤ 146096) :
    1 ≤ monthOf doe ∧ monthOf doe ≤ 12 ∧
      (if 2 < monthOf doe then monthOf doe - 3 else monthOf doe + 9) = mpOf doe ∧
      (monthOf doe ≤ 2 ↔ 10 ≤ mpOf doe) := by
  have h1 := mpOf_spec doe h
  unfold monthOf
  split <;> constructor <;> try omega
  all_goals refine ⟨by omega, ?_, by omega⟩
  all_goals split <;> omega

theorem days_civil_roundtrip (t : Nat) :
    daysFromCivil (civilFromDays t).1 (civilFromDays t).2.1 (civilFromDays t).2.2 = t := by
  have hdm := Nat.div_add_mod (t + 719468) 146097
  set era := (t + 719468) / 146097 with hera
  set doe := (t + 719468) % 146097 with hdoe
  have hlt : doe ≤ 146096 := by
    have := Nat.mod_lt (t + 719468) (show 0 < 146097 by omega)
    omega
  have h1 := centOf_spec doe hlt
  have h2 := quadOf_spec doe hlt
  have h3 := yrOf_spec doe hlt
  have h4 := yoeOf_spec doe hlt
  have h5 := mpOf_spec doe hlt
  have h6 := monthOf_spec doe hlt
  show daysFromCivil
      (if monthOf doe ≤ 2 then yoeOf doe + era * 400 + 1 else yoeOf doe + era * 400)
      (monthOf doe) (mdayOf doe) = t
  unfold daysFromCivil
  by_cases hm : monthOf doe ≤ 2
  · simp only [hm, if_true, reduceIte]
    have hy2 : yoeOf doe + era * 400 + 1 - 1 = yoeOf doe + era * 400 := by omega
    rw [hy2]
    have hdiv : (yoeOf doe + era * 400) / 400 = era := by omega
    rw [hdiv]
    have hsub : yoeOf doe + era * 400 - era * 400 = yoeOf doe := by omega
    rw [hsub]
    rw [h6.2.2.1]
    omega
  · simp only [hm, if_false, reduceIte]
    have hdiv : (yoeOf doe + era * 400) / 400 = era := by omega
    rw [hdiv]
    have hsub : yoeOf doe + era * 400 - era * 400 = yoeOf doe := by omega
    rw [hsub]
    rw [h6.2.2.1]
    omega

/-- Modelled from the spec: the calendar fields returned by the calendar
capability (`localtimeNow() -> {year, month, day, hour, minute, second}`). -/
structure Tm where
  year : Nat
  month : Nat
  day : Nat
  hour : Nat
  minute : Nat
  second : Nat
deriving DecidableEq

/-- Modelled from the spec: `os::localtime` — calendar fields of the instant
`t` (seconds since the epoch; the model works in a fixed zone). -/
def localtime (t : Nat) : Tm :=
  { year := (civilFromDays (t / 86400)).1
    month := (civilFromDays (t / 86400)).2.1
    day := (civilFromDays (t / 86400)).2.2
    hour := t % 86400 / 3600
    minute := t % 86400 % 3600 / 60
    second := t % 60 }

/-- Modelled from the spec: `std::mktime` — the instant of a calendar-field
struct (inverse conversion of the calendar capability). -/
def mktime (d : Tm) : Nat :=
  daysFromCivil d.year d.month d.day * 86400 + d.hour * 3600 + d.minute * 60 + d.second

theorem mktime_localtime_sameday (t rh rm : Nat) :
    mktime { year := (localtime t).year, month := (localtime t).month,
             day := (localtime t).day, hour := rh, minute := rm, second := 0 }
      = t / 86400 * 86400 + rh * 3600 + rm * 60 := by
  show daysFromCivil (civilFromDays (t / 86400)).1 (civilFromDays (t / 86400)).2.1
      (civilFromDays (t / 86400)).2.2 * 86400 + rh * 3600 + rm * 60 + 0
    = t / 86400 * 86400 + rh * 3600 + rm * 60
  rw [days_civil_roundtrip (t / 86400)]
  omega

/-- `daily_file_sink::_next_rotation_tp` (`file_sinks.h` lines 300-314): read
the calendar fields of now, overwrite hour/minute/second with the configured
rotation time, convert back; if that instant is strictly after now return it,
otherwise return it plus 24 hours. -/
def nextRotationTp (rh rm : Nat) (now : Nat) : Nat :=
  let date := localtime now
  let date2 := { date with hour := rh, minute := rm, second := 0 }
  let rotation_time := mktime date2
  if rotation_time > now then rotation_time else rotation_time + 24 * 3600

theorem nextRotationTp_eq (rh rm now : Nat) :
    nextRotationTp rh rm now =
      if now < now / 86400 * 86400 + rh * 3600 + rm * 60
      then now / 86400 * 86400 + rh * 3600 + rm * 60
      else now / 86400 * 86400 + rh * 3600 + rm * 60 + 24 * 3600 := by
  unfold nextRotationTp
  simp only []
  rw [mktime_localtime_sameday]

theorem nextRotationTp_future (rh rm now : Nat) : now < nextRotationTp rh rm now := by
  rw [nextRotationTp_eq]
  have hdm := Nat.div_add_mod now 86400
  have hlt : now % 86400 < 86400 := Nat.mod_lt now (by omega)
  split
  · omega
  · omega

/-- Modelled from the spec: the file capability's view of the disk.  A file's
content is the list of records appended since it was created or truncated;
`none` means the file does not exist.  `removeFailCode`/`renameFailCode`
inject the OS failures the spec's `remove`/`rename` contracts may return
(`ok | osError`): `some code` makes the operation fail with that code. -/
structure FileSys where
  contents : List Char → Option (List (List Char))
  removeFailCode : List Char → Option Nat
  renameFailCode : List Char → List Char → Option Nat

/-- Modelled from the spec: `file_helper::file_exists(path)`. -/
def fsExistsFile (fs : FileSys) (p : List Char) : Bool := (fs.contents p).isSome

/-- Replace the stored content of one path. -/
def fsSetContents (fs : FileSys) (p : List Char) (v : Option (List (List Char))) : FileSys :=
  { fs with contents := fun q => if q = p then v else fs.contents q }

/-- Modelled from the spec: `file_helper::remove(path) -> ok | osError`. -/
def fsRemove (fs : FileSys) (p : List Char) : Except Nat FileSys :=
  match fs.removeFailCode p with
  | some code => .error code
  | none => .ok (fsSetContents fs p none)

/-- Modelled from the spec: `file_helper::rename(src, dst) -> ok | osError`. -/
def fsRename (fs : FileSys) (src dst : List Char) : Except Nat FileSys :=
  match fs.renameFailCode src dst with
  | some code => .error code
  | none => .ok (fsSetContents (fsSetContents fs dst (fs.contents src)) src none)

/-- Modelled from the spec: `file_helper::write` — append one record to an
open file (creating it empty first if needed, as append-mode open does). -/
def fsAppend (fs : FileSys) (p : List Char) (msg : List Char) : FileSys :=
  fsSetContents fs p (some ((fs.contents p).getD [] ++ [msg]))

/-- Modelled from the spec: `file_helper::reopen(truncate := true)` — the file
exists afterwards with empty content. -/
def fsTruncate (fs : FileSys) (p : List Char) : FileSys :=
  fsSetContents fs p (some [])

/-- `rotating_file_sink::calc_filename(filename, index, extension)`
(`file_sinks.h` lines 146-154): `filename.index.extension` for a non-zero
index, `filename.extension` otherwise. -/
def calc_filename (filename : List Char) (index : Nat) (extension : List Char) : List Char :=
  if index ≠ 0 then filename ++ '.' :: (decRepr index ++ '.' :: extension)
  else filename ++ '.' :: extension

theorem calc_filename_inj {b e : List Char} {i j : Nat}
    (h : calc_filename b i e = calc_filename b j e) : i = j := by
  unfold calc_filename at h
  by_cases hi : i = 0 <;> by_cases hj : j = 0
  · omega
  · rw [if_neg (show ¬ i ≠ 0 by omega), if_pos hj] at h
    exfalso
    have := congrArg List.length h
    simp at this
    have := decRepr_ne_nil j
    have hlen : 0 < (decRepr j).length := List.length_pos.mpr this
    omega
  · rw [if_pos hi, if_neg (show ¬ j ≠ 0 by omega)] at h
    exfalso
    have := congrArg List.length h
    simp at this
    have := decRepr_ne_nil i
    have hlen : 0 < (decRepr i).length := List.length_pos.mpr this
    omega
  · rw [if_pos hi, if_pos hj] at h
    have h2 := List.append_cancel_left h
    have h3 := List.cons_injective h2
    have hlen : (decRepr i).length = (decRepr j).length := by
      have := congrArg List.length h3
      simp at this
      omega
    have h4 := (List.append_inj h3 hlen).1
    exact decRepr_inj h4

/-- The per-sink state of `rotating_file_sink` (fields of the template class
minus the file handle, which lives in `FileSys`). -/
structure RotatingFileSinkState where
  base_filename : List Char
  extension : List Char
  max_size : Nat
  max_files : Nat
  current_size : Nat

/-- The structured payload of the `spdlog_ex` thrown by
`rotating_file_sink::_rotate` ("failed removing ..." / "failed renaming ...",
with `errno`): the failed operation, the path(s) involved, the OS code. -/
inductive RotationErrorKind where
  | removeFailed (target : List Char)
  | renameFailed (src target : List Char)
deriving DecidableEq

/-- A rotation failure: which step failed and the OS error code it carries. -/
structure RotationError where
  kind : RotationErrorKind
  osCode : Nat
deriving DecidableEq

/-- One iteration of the `_rotate` loop body (`file_sinks.h` lines 165-181):
`src = calc_filename(base, i-1)`, `target = calc_filename(base, i)`; if the
target exists, remove it (throwing on failure); if the source exists, rename
it onto the target (throwing on failure).  A thrown error is returned
together with the filesystem as it stands at the throw. -/
def rotateStep (base ext : List Char) (i : Nat) (fs : FileSys) :
    FileSys × Option RotationError :=
  let src := calc_filename base (i - 1) ext
  let target := calc_filename base i ext
  match (if fsExistsFile fs target then fsRemove fs target else .ok fs) with
  | .error code => (fs, some ⟨.removeFailed target, code⟩)
  | .ok fs1 =>
    if fsExistsFile fs1 src then
      match fsRename fs1 src target with
      | .error code => (fs1, some ⟨.renameFailed src target, code⟩)
      | .ok fs2 => (fs2, none)
    else (fs1, none)

/-- The `for (auto i = _max_files; i > 0; --i)` loop of `_rotate`: steps run
for `i = k, k-1, …, 1`; a thrown error aborts the remaining iterations. -/
def rotateLoop (base ext : List Char) : Nat → FileSys → FileSys × Option RotationError
  | 0, fs => (fs, none)
  | i + 1, fs =>
    match rotateStep base ext (i + 1) fs with
    | (fs1, none) => rotateLoop base ext i fs1
    | (fs1, some e) => (fs1, some e)

/-- `rotating_file_sink::_rotate` (`file_sinks.h` lines 161-183): close the
active file, run the descending rename chain, then reopen the base filename
(index 0) truncated.  The truncating reopen happens only if no step threw. -/
def rotate (st : RotatingFileSinkState) (fs : FileSys) : FileSys × Option RotationError :=
  match rotateLoop st.base_filename st.extension st.max_files fs with
  | (fs1, none) => (fsTruncate fs1 (calc_filename st.base_filename 0 st.extension), none)
  | (fs1, some e) => (fs1, some e)

/-- `rotating_file_sink::_sink_it` (`file_sinks.h` lines 129-138): add the
record's size to `_current_size`; if it now exceeds `_max_size`, rotate and
reset `_current_size` to the record's size; then append the record to the
active file.  A rotation error propagates before the write happens. -/
def rotating_sink_it (st : RotatingFileSinkState) (fs : FileSys) (msg : List Char) :
    (RotatingFileSinkState × FileSys) × Option RotationError :=
  if st.current_size + msg.length > st.max_size then
    match rotate st fs with
    | (fs1, some e) =>
      (({ st with current_size := st.current_size + msg.length }, fs1), some e)
    | (fs1, none) =>
      (({ st with current_size := msg.length },
        fsAppend fs1 (calc_filename st.base_filename 0 st.extension) msg), none)
  else
    (({ st with current_size := st.current_size + msg.length },
      fsAppend fs (calc_filename st.base_filename 0 st.extension) msg), none)

theorem fsSetContents_same (fs : FileSys) (p : List Char) (v : Option (List (List Char))) :
    (fsSetContents fs p v).contents p = v := by
  simp [fsSetContents]

theorem fsSetContents_other (fs : FileSys) (p q : List Char) (v : Option (List (List Char)))
    (h : q ≠ p) : (fsSetContents fs p v).contents q = fs.contents q := by
  simp [fsSetContents, h]

theorem fsExistsFile_false {fs : FileSys} {p : List Char}
    (h : ¬ fsExistsFile fs p = true) : fs.contents p = none := by
  unfold fsExistsFile at h
  cases hc : fs.contents p
  · rfl
  · rw [hc] at h; simp at h

theorem rotateStep_ok (base ext : List Char) (i : Nat) (hi : 1 ≤ i) (fs fs1 : FileSys)
    (h : rotateStep base ext i fs = (fs1, none)) :
    fs1.contents (calc_filename base i ext) = fs.contents (calc_filename base (i - 1) ext) ∧
    fs1.contents (calc_filename base (i - 1) ext) = none ∧
    (∀ p, p ≠ calc_filename base i ext → p ≠ calc_filename base (i - 1) ext →
      fs1.contents p = fs.contents p) ∧
    fs1.removeFailCode = fs.removeFailCode ∧ fs1.renameFailCode = fs.renameFailCode := by
  have hne : calc_filename base (i - 1) ext ≠ calc_filename base i ext := by
    intro hEq
    have := calc_filename_inj hEq
    omega
  unfold rotateStep at h
  simp only [] at h
  split at h
  · simp at h
  · rename_i fsA heq
    -- stage 1 facts: fsA has no file at target, agrees with fs elsewhere, same flags
    have hstage1 : fsA.contents (calc_filename base i ext) = none ∧
        (∀ p, p ≠ calc_filename base i ext → fsA.contents p = fs.contents p) ∧
        fsA.removeFailCode = fs.removeFailCode ∧ fsA.renameFailCode = fs.renameFailCode := by
      split at heq
      · rename_i hex
        unfold fsRemove at heq
        split at heq
        · cases heq
        · rename_i hrc
          cases heq
          refine ⟨fsSetContents_same _ _ _, ?_, rfl, rfl⟩
          intro p hp
          exact fsSetContents_other _ _ _ _ hp
      · rename_i hex
        cases heq
        exact ⟨fsExistsFile_false hex, fun p _ => rfl, rfl, rfl⟩
    obtain ⟨hA1, hA2, hA3, hA4⟩ := hstage1
    split at h
    · rename_i hexs
      split at h
      · simp at h
      · rename_i fsB heq2
        unfold fsRename at heq2
        split at heq2
        · cases heq2
        · rename_i hrn
          cases heq2
          cases h
          refine ⟨?_, ?_, ?_, hA3, hA4⟩
          · rw [fsSetContents_other _ _ _ _ hne.symm, fsSetContents_same]
            exact hA2 _ hne
          · rw [fsSetContents_same]
          · intro p hp1 hp2
            rw [fsSetContents_other _ _ _ _ hp2, fsSetContents_other _ _ _ _ hp1]
            exact hA2 p hp1
    · rename_i hexs
      injection h with h1 h2
      subst h1
      have hsrc : fsA.contents (calc_filename base (i - 1) ext) = none :=
        fsExistsFile_false hexs
      refine ⟨?_, hsrc, ?_, hA3, hA4⟩
      · rw [hA1]
        rw [← hA2 _ hne]
        exact hsrc.symm
      · intro p hp1 hp2
        exact hA2 p hp1

theorem rotateStep_err (base ext : List Char) (i : Nat) (fs fs1 : FileSys) (e : RotationError)
    (h : rotateStep base ext i fs = (fs1, some e)) :
    ((fs.removeFailCode (calc_filename base i ext) = some e.osCode ∧
        e.kind = .removeFailed (calc_filename base i ext)) ∨
      (fs.renameFailCode (calc_filename base (i - 1) ext) (calc_filename base i ext)
          = some e.osCode ∧
        e.kind = .renameFailed (calc_filename base (i - 1) ext) (calc_filename base i ext))) ∧
    (∀ p, p ≠ calc_filename base i ext → fs1.contents p = fs.contents p) ∧
    fs1.removeFailCode = fs.removeFailCode ∧ fs1.renameFailCode = fs.renameFailCode := by
  unfold rotateStep at h
  simp only [] at h
  split at h
  · rename_i code heq
    cases h
    split at heq
    · rename_i hex
      unfold fsRemove at heq
      split at heq
      · rename_i hrc
        cases heq
        exact ⟨.inl ⟨hrc, rfl⟩, fun p _ => rfl, rfl, rfl⟩
      · cases heq
    · cases heq
  · rename_i fsA heq
    have hstage1 : (∀ p, p ≠ calc_filename base i ext → fsA.contents p = fs.contents p) ∧
        fsA.removeFailCode = fs.removeFailCode ∧ fsA.renameFailCode = fs.renameFailCode := by
      split at heq
      · rename_i hex
        unfold fsRemove at heq
        split at heq
        · cases heq
        · cases heq
          exact ⟨fun p hp => fsSetContents_other _ _ _ _ hp, rfl, rfl⟩
      · cases heq
        exact ⟨fun p _ => rfl, rfl, rfl⟩
    obtain ⟨hA2, hA3, hA4⟩ := hstage1
    split at h
    · split at h
      · rename_i code heq2
        cases h
        unfold fsRename at heq2
        split at heq2
        · rename_i hrn
          cases heq2
          rw [hA4] at hrn
          exact ⟨.inr ⟨hrn, rfl⟩, hA2, hA3, hA4⟩
        · cases heq2
      · simp at h
    · simp at h

theorem fsTruncate_same (fs : FileSys) (p : List Char) :
    (fsTruncate fs p).contents p = some [] := fsSetContents_same fs p (some [])

theorem fsTruncate_other (fs : FileSys) (p q : List Char) (h : q ≠ p) :
    (fsTruncate fs p).contents q = fs.contents q := fsSetContents_other fs p q (some []) h

theorem rotateLoop_ok (base ext : List Char) : ∀ (k : Nat) (fs fs1 : FileSys),
    rotateLoop base ext k fs = (fs1, none) →
    (∀ j, 1 ≤ j → j ≤ k → fs1.contents (calc_filename base j ext)
        = fs.contents (calc_filename base (j - 1) ext)) ∧
    (∀ p, (∀ j, j ≤ k → p ≠ calc_filename base j ext) → fs1.contents p = fs.contents p) ∧
    fs1.removeFailCode = fs.removeFailCode ∧ fs1.renameFailCode = fs.renameFailCode := by
  intro k
  induction k with
  | zero =>
    intro fs fs1 h
    unfold rotateLoop at h
    injection h with h1 h2
    subst h1
    exact ⟨fun j hj1 hj2 => by omega, fun p _ => rfl, rfl, rfl⟩
  | succ k ih =>
    intro fs fs1 h
    unfold rotateLoop at h
    split at h
    · rename_i fsA heq
      have hstep := rotateStep_ok base ext (k + 1) (by omega) fs fsA heq
      rw [Nat.add_sub_cancel] at hstep
      have hrec := ih fsA fs1 h
      obtain ⟨hs1, hs2, hs3, hs4, hs5⟩ := hstep
      obtain ⟨hr1, hr2, hr3, hr4⟩ := hrec
      refine ⟨?_, ?_, hr3.trans hs4, hr4.trans hs5⟩
      · intro j hj1 hj2
        by_cases hjk : j ≤ k
        · rw [hr1 j hj1 hjk]
          apply hs3
          · intro hEq; have := calc_filename_inj hEq; omega
          · intro hEq; have := calc_filename_inj hEq; omega
        · have hj : j = k + 1 := by omega
          subst hj
          rw [Nat.add_sub_cancel]
          rw [← hs1]
          apply hr2
          intro j' hj'
          intro hEq; have := calc_filename_inj hEq; omega
      · intro p hp
        rw [hr2 p fun j hj => hp j (by omega)]
        exact hs3 p (hp (k + 1) (by omega)) (hp k (by omega))
    · rename_i fsA e heq
      injection h with h1 h2
      cases h2

theorem rotateLoop_err (base ext : List Char) : ∀ (k : Nat) (fs fs1 : FileSys)
    (e : RotationError), rotateLoop base ext k fs = (fs1, some e) →
    ∃ i, 1 ≤ i ∧ i ≤ k ∧
      ((fs.removeFailCode (calc_filename base i ext) = some e.osCode ∧
          e.kind = .removeFailed (calc_filename base i ext)) ∨
        (fs.renameFailCode (calc_filename base (i - 1) ext) (calc_filename base i ext)
            = some e.osCode ∧
          e.kind = .renameFailed (calc_filename base (i - 1) ext)
            (calc_filename base i ext))) ∧
      (∀ j, j < i → fs1.contents (calc_filename base j ext)
          = fs.contents (calc_filename base j ext)) ∧
      (∀ p, (∀ j, j ≤ k → p ≠ calc_filename base j ext) → fs1.contents p = fs.contents p) := by
  intro k
  induction k with
  | zero =>
    intro fs fs1 e h
    unfold rotateLoop at h
    injection h with h1 h2
    cases h2
  | succ k ih =>
    intro fs fs1 e h
    unfold rotateLoop at h
    split at h
    · rename_i fsA heq
      have hstep := rotateStep_ok base ext (k + 1) (by omega) fs fsA heq
      rw [Nat.add_sub_cancel] at hstep
      obtain ⟨hs1, hs2, hs3, hs4, hs5⟩ := hstep
      obtain ⟨i, hi1, hi2, hpin, hfr, hout⟩ := ih fsA fs1 e h
      refine ⟨i, hi1, by omega, ?_, ?_, ?_⟩
      · rw [hs4, hs5] at hpin
        exact hpin
      · intro j hj
        rw [hfr j hj]
        apply hs3
        · intro hEq; have := calc_filename_inj hEq; omega
        · intro hEq; have := calc_filename_inj hEq; omega
      · intro p hp
        rw [hout p fun j hj => hp j (by omega)]
        exact hs3 p (hp (k + 1) (by omega)) (hp k (by omega))
    · rename_i fsA eA heq
      injection h with h1 h2
      subst h1
      injection h2 with h2
      subst h2
      have hstep := rotateStep_err base ext (k + 1) fs fsA eA heq
      rw [Nat.add_sub_cancel] at hstep
      obtain ⟨hpin, hfr, _, _⟩ := hstep
      refine ⟨k + 1, by omega, by omega, hpin, ?_, ?_⟩
      · intro j hj
        apply hfr
        intro hEq; have := calc_filename_inj hEq; omega
      · intro p hp
        exact hfr p (hp (k + 1) (by omega))

theorem rotate_ok (st : RotatingFileSinkState) (fs fs' : FileSys)
    (h : rotate st fs = (fs', none)) :
    (∀ j, 1 ≤ j → j ≤ st.max_files →
      fs'.contents (calc_filename st.base_filename j st.extension)
        = fs.contents (calc_filename st.base_filename (j - 1) st.extension)) ∧
    fs'.contents (calc_filename st.base_filename 0 st.extension) = some [] ∧
    (∀ p, (∀ j, j ≤ st.max_files → p ≠ calc_filename st.base_filename j st.extension) →
      fs'.contents p = fs.contents p) := by
  unfold rotate at h
  split at h
  · rename_i fs1 hloop
    injection h with h1 h2
    subst h1
    have hl := rotateLoop_ok st.base_filename st.extension st.max_files fs fs1 hloop
    refine ⟨?_, fsTruncate_same _ _, ?_⟩
    · intro j hj1 hj2
      rw [fsTruncate_other]
      · exact hl.1 j hj1 hj2
      · intro hEq; have := calc_filename_inj hEq; omega
    · intro p hp
      rw [fsTruncate_other _ _ _ (hp 0 (by omega))]
      exact hl.2.1 p hp
  · rename_i fsA e hloop
    injection h with h1 h2
    cases h2

theorem rotate_err (st : RotatingFileSinkState) (fs fs' : FileSys) (e : RotationError)
    (h : rotate st fs = (fs', some e)) :
    ∃ i, 1 ≤ i ∧ i ≤ st.max_files ∧
      ((fs.removeFailCode (calc_filename st.base_filename i st.extension) = some e.osCode ∧
          e.kind = .removeFailed (calc_filename st.base_filename i st.extension)) ∨
        (fs.renameFailCode (calc_filename st.base_filename (i - 1) st.extension)
            (calc_filename st.base_filename i st.extension) = some e.osCode ∧
          e.kind = .renameFailed (calc_filename st.base_filename (i - 1) st.extension)
            (calc_filename st.base_filename i st.extension))) ∧
      (∀ j, j < i → fs'.contents (calc_filename st.base_filename j st.extension)
          = fs.contents (calc_filename st.base_filename j st.extension)) ∧
      (∀ p, (∀ j, j ≤ st.max_files → p ≠ calc_filename st.base_filename j st.extension) →
        fs'.contents p = fs.contents p) := by
  unfold rotate at h
  split at h
  · rename_i fs1 hloop
    injection h with h1 h2
    cases h2
  · rename_i fsA eA hloop
    injection h with h1 h2
    subst h1
    injection h2 with h2
    subst h2
    exact rotateLoop_err st.base_filename st.extension st.max_files fs fsA eA hloop

/-- An operation the daily sink issues against the file capability. -/
inductive FileOp where
  | openFile (p : List Char)
  | writeFile (msg : List Char)
  | removeFile (p : List Char)
  | renameFile (src dst : List Char)
deriving DecidableEq

/-- Whether an operation removes or renames an existing file. -/
def isDestructiveOp : FileOp → Bool
  | .removeFile _ => true
  | .renameFile _ _ => true
  | _ => false

/-- Zero-padded decimal of width `w` (the `fmt` `{:0wd}` conversion). -/
def padDec (w n : Nat) : List Char :=
  List.replicate (w - (decRepr n).length) '0' ++ decRepr n

/-- `default_daily_file_name_calculator::calc_filename` (`file_sinks.h` lines
201-209): the dated name `basename_YYYY-MM-DD_hh-mm.extension` for the given
calendar fields (the source formats the fields of `os::localtime()` through
`"\x7b\x7d_\x7b:04d\x7d-\x7b:02d\x7d-\x7b:02d\x7d_\x7b:02d\x7d-\x7b:02d\x7d.\x7b\x7d"`;
its local re-declaration of `basename` is an obvious slip and is ignored). -/
def daily_calc_filename (basename extension : List Char) (tm : Tm) : List Char :=
  basename ++ '_' :: (padDec 4 tm.year ++ '-' :: (padDec 2 tm.month ++ '-' ::
    (padDec 2 tm.day ++ '_' :: (padDec 2 tm.hour ++ '-' ::
      (padDec 2 tm.minute ++ '.' :: extension)))))

/-- The `spdlog_ex("daily_file_sink: Invalid rotation time in ctor")` payload. -/
inductive ConfigurationError where
  | invalidRotationTime
deriving DecidableEq

/-- The per-sink state of `daily_file_sink` (fields of the template class
minus the file handle). -/
structure DailyFileSinkState where
  base_filename : List Char
  extension : List Char
  rotation_h : Nat
  rotation_m : Nat
  rotation_tp : Nat

/-- The `daily_file_sink` constructor (`file_sinks.h` lines 237-263): validate
the rotation hour/minute (throwing before anything else happens), compute the
first rotation instant, split the filename, and open the dated file.  The
returned operation list holds the file operations performed. -/
def daily_file_sink_construct (filename : List Char) (rotation_hour rotation_minute : Int)
    (now : Nat) : Except ConfigurationError (DailyFileSinkState × List FileOp) :=
  if rotation_hour < 0 ∨ rotation_hour > 23 ∨ rotation_minute < 0 ∨ rotation_minute > 59 then
    .error .invalidRotationTime
  else
    let parts := dailySplit filename
    .ok ({ base_filename := parts.1, extension := parts.2,
           rotation_h := rotation_hour.toNat, rotation_m := rotation_minute.toNat,
           rotation_tp := nextRotationTp rotation_hour.toNat rotation_minute.toNat now },
         [.openFile (daily_calc_filename parts.1 parts.2 (localtime now))])

/-- `daily_file_sink::_sink_it` (`file_sinks.h` lines 284-292): if now has
reached `_rotation_tp`, open the dated filename for now's calendar fields and
recompute `_rotation_tp`; then write the record.  The operation list holds
the file operations performed by this call. -/
def daily_sink_it (st : DailyFileSinkState) (now : Nat) (msg : List Char) :
    DailyFileSinkState × List FileOp :=
  if now ≥ st.rotation_tp then
    ({ st with rotation_tp := nextRotationTp st.rotation_h st.rotation_m now },
     [.openFile (daily_calc_filename st.base_filename st.extension (localtime now)),
      .writeFile msg])
  else (st, [.writeFile msg])

/-- A concrete record and concrete names used by the witnesses below. -/
def baseW : List Char := ['m', 'y', 'l', 'o', 'g']

/-- Concrete extension for witnesses. -/
def extW : List Char := ['t', 'x', 't']

/-- A filesystem with no files and no injected failures. -/
def fsNoFiles : FileSys :=
  { contents := fun _ => none
    removeFailCode := fun _ => none
    renameFailCode := fun _ _ => none }

/-- C1: the claim says that for every path whose filename component contains
no dot after the last separator — e.g. `a.b/c` — the constructor split keeps
the whole path as the base and uses the variant's default extension (`log` /
`txt`).  The code does the opposite: for `a.b/c` both constructors split at
the dot inside the directory segment, yielding base `a` and extension `b/c`
(in the rotating constructor the default-extension branch is unreachable
because `ndx == npos` contradicts `ndx < ndxs1 || ndx < ndxs2`). -/
theorem split_dot_in_directory_misparsed :
    rotatingSplit pathDotInDir = (['a'], ['b', '/', 'c']) ∧
    dailySplit pathDotInDir = (['a'], ['b', '/', 'c']) ∧
    rotatingSplit pathDotInDir ≠ (pathDotInDir, ['l', 'o', 'g']) ∧
    dailySplit pathDotInDir ≠ (pathDotInDir, ['t', 'x', 't']) := by decide

/-- C5: `_next_rotation_tp` returns the instant on now's calendar day with
hour/minute set to the rotation time and seconds zero when that instant is
strictly after now, and that instant plus exactly 24 hours otherwise; in
particular with rotation time 00:00, now = 2024-01-01T23:59:59 yields
2024-01-02T00:00:00 and now = 2024-01-02T00:00:01 yields 2024-01-03T00:00:00. -/
theorem next_rotation_tp_spec :
    (∀ rh rm now, nextRotationTp rh rm now =
      if now < now / 86400 * 86400 + rh * 3600 + rm * 60
      then now / 86400 * 86400 + rh * 3600 + rm * 60
      else now / 86400 * 86400 + rh * 3600 + rm * 60 + 24 * 3600) ∧
    nextRotationTp 0 0 (daysFromCivil 2024 1 1 * 86400 + 23 * 3600 + 59 * 60 + 59)
      = daysFromCivil 2024 1 2 * 86400 ∧
    nextRotationTp 0 0 (daysFromCivil 2024 1 2 * 86400 + 1)
      = daysFromCivil 2024 1 3 * 86400 := by
  refine ⟨fun rh rm now => nextRotationTp_eq rh rm now, by decide, by decide⟩

/-- C6: constructing a `daily_file_sink` with a rotation hour outside `[0,23]`
or a rotation minute outside `[0,59]` fails with the configuration error
before any file is opened (the returned operation list never materialises);
for in-range values construction succeeds, opens the dated file, and stores
the hour and minute exactly as given — no clamping. -/
theorem daily_construct_validates (filename : List Char) (rh rm : Int) (now : Nat) :
    ((rh < 0 ∨ rh > 23 ∨ rm < 0 ∨ rm > 59) →
      daily_file_sink_construct filename rh rm now = .error .invalidRotationTime) ∧
    (0 ≤ rh → rh ≤ 23 → 0 ≤ rm → rm ≤ 59 →
      ∃ st, daily_file_sink_construct filename rh rm now
          = .ok (st, [.openFile (daily_calc_filename (dailySplit filename).1
              (dailySplit filename).2 (localtime now))]) ∧
        (st.rotation_h : Int) = rh ∧ (st.rotation_m : Int) = rm) := by
  constructor
  · intro hbad
    unfold daily_file_sink_construct
    rw [if_pos hbad]
  · intro h1 h2 h3 h4
    unfold daily_file_sink_construct
    rw [if_neg (by omega)]
    exact ⟨_, rfl, Int.toNat_of_nonneg h1, Int.toNat_of_nonneg h3⟩

/-- C6 witness: rotation hour 24 is rejected. -/
theorem daily_construct_validates_witness :
    daily_file_sink_construct baseW 24 0 0 = .error .invalidRotationTime :=
  (daily_construct_validates baseW 24 0 0).1 (by decide)

/-- C8: every value `_next_rotation_tp` computes is strictly later than the
instant at which it is computed, and `_sink_it` recomputes `_rotation_tp`
exactly on the writes that observe `now >= _rotation_tp`: such a write stores
`nextRotationTp` of now, any other write leaves the state untouched. -/
theorem daily_rotation_tp_invariant :
    (∀ rh rm now, now < nextRotationTp rh rm now) ∧
    (∀ st now msg, st.rotation_tp ≤ now →
      (daily_sink_it st now msg).1.rotation_tp
        = nextRotationTp st.rotation_h st.rotation_m now) ∧
    (∀ st now msg, now < st.rotation_tp → (daily_sink_it st now msg).1 = st) := by
  refine ⟨nextRotationTp_future, ?_, ?_⟩
  · intro st now msg hc
    unfold daily_sink_it
    rw [if_pos hc]
  · intro st now msg hlt
    unfold daily_sink_it
    rw [if_neg (by omega)]

/-- A concrete daily-sink state whose rotation instant (0) has passed. -/
def dailyStW : DailyFileSinkState :=
  { base_filename := baseW, extension := extW, rotation_h := 0, rotation_m := 0,
    rotation_tp := 0 }

/-- C8 witness: the concrete state written at instant 100. -/
theorem daily_rotation_tp_invariant_witness :
    100 < nextRotationTp 0 0 100 ∧
    (daily_sink_it dailyStW 100 ['x']).1.rotation_tp = nextRotationTp 0 0 100 :=
  ⟨daily_rotation_tp_invariant.1 0 0 100,
   daily_rotation_tp_invariant.2.1 dailyStW 100 ['x'] (by decide)⟩

/-- C9: the daily sink never deletes or renames a file: a write that observes
`now >= _rotation_tp` only opens the dated filename computed from now's
calendar fields and appends the record, and any other write only appends. -/
theorem daily_sink_it_never_destroys (st : DailyFileSinkState) (now : Nat) (msg : List Char) :
    (∀ op ∈ (daily_sink_it st now msg).2, isDestructiveOp op = false) ∧
    (st.rotation_tp ≤ now → (daily_sink_it st now msg).2 =
      [.openFile (daily_calc_filename st.base_filename st.extension (localtime now)),
       .writeFile msg]) ∧
    (now < st.rotation_tp → (daily_sink_it st now msg).2 = [.writeFile msg]) := by
  unfold daily_sink_it
  by_cases hc : st.rotation_tp ≤ now
  · rw [if_pos hc]
    refine ⟨?_, fun _ => rfl, fun hlt => absurd hc (by omega)⟩
    intro op hop
    simp only [List.mem_cons, List.mem_singleton, List.not_mem_nil, or_false] at hop
    rcases hop with h | h <;> subst h <;> rfl
  · rw [if_neg hc]
    refine ⟨?_, fun hle => absurd hle hc, fun _ => rfl⟩
    intro op hop
    simp only [List.mem_singleton] at hop
    subst hop
    rfl

/-- C9 witness: a write at instant 100 past the rotation instant opens the
dated file and writes; neither operation is destructive. -/
theorem daily_sink_it_never_destroys_witness :
    (daily_sink_it dailyStW 100 ['x']).2 =
      [.openFile (daily_calc_filename baseW extW (localtime 100)), .writeFile ['x']] ∧
    isDestructiveOp (.openFile (daily_calc_filename baseW extW (localtime 100))) = false :=
  ⟨(daily_sink_it_never_destroys dailyStW 100 ['x']).2.1 (by decide),
   (daily_sink_it_never_destroys dailyStW 100 ['x']).1 _
     (by simp [daily_sink_it, dailyStW])⟩

/-- C2: on every write the record's length is added to `_current_size`; the
write rotates exactly when the new total strictly exceeds `_max_size`, in
which case one `rotate` runs before the append, `_current_size` is reset to
the record's length, and the triggering record is the sole (first) content of
the freshly truncated active file; otherwise no rotation happens and the
record is appended to the current active file. -/
theorem rotating_sink_it_spec (st : RotatingFileSinkState) (fs : FileSys) (msg : List Char) :
    (st.current_size + msg.length ≤ st.max_size →
      rotating_sink_it st fs msg =
        (({ st with current_size := st.current_size + msg.length },
          fsAppend fs (calc_filename st.base_filename 0 st.extension) msg), none)) ∧
    (∀ fs1, st.max_size < st.current_size + msg.length →
      rotate st fs = (fs1, none) →
      rotating_sink_it st fs msg =
        (({ st with current_size := msg.length },
          fsAppend fs1 (calc_filename st.base_filename 0 st.extension) msg), none) ∧
      (fsAppend fs1 (calc_filename st.base_filename 0 st.extension) msg).contents
          (calc_filename st.base_filename 0 st.extension) = some [msg]) := by
  constructor
  · intro hle
    unfold rotating_sink_it
    rw [if_neg (by omega)]
  · intro fs1 hgt hrot
    have hact := (rotate_ok st fs fs1 hrot).2.1
    constructor
    · unfold rotating_sink_it
      rw [if_pos hgt, hrot]
    · unfold fsAppend
      rw [fsSetContents_same, hact]
      rfl

/-- Record of three characters used by witnesses. -/
def msgAbc : List Char := ['a', 'b', 'c']

/-- A sink state far from the size limit. -/
def stC2a : RotatingFileSinkState :=
  { base_filename := baseW, extension := extW, max_size := 5, max_files := 0,
    current_size := 1 }

/-- A sink state that the next 3-byte record pushes over the limit. -/
def stC2b : RotatingFileSinkState :=
  { base_filename := baseW, extension := extW, max_size := 5, max_files := 0,
    current_size := 3 }

/-- C2 witness: a non-rotating write accumulates the size; a rotating write
resets it and the triggering record is the first content of the new file. -/
theorem rotating_sink_it_spec_witness :
    ((rotating_sink_it stC2a fsNoFiles msgAbc).1.1).current_size = 4 ∧
    ((rotating_sink_it stC2b fsNoFiles msgAbc).1.1).current_size = 3 ∧
    ((rotating_sink_it stC2b fsNoFiles msgAbc).1.2).contents
        (calc_filename baseW 0 extW) = some [msgAbc] := by
  have h1 := (rotating_sink_it_spec stC2a fsNoFiles msgAbc).1 (by decide)
  have h2 := (rotating_sink_it_spec stC2b fsNoFiles msgAbc).2
    (fsTruncate fsNoFiles (calc_filename baseW 0 extW)) (by decide) rfl
  refine ⟨by rw [h1]; rfl, by rw [h2.1]; rfl, ?_⟩
  rw [h2.1]
  exact h2.2

/-- C3: a successful `_rotate` shifts the backup chain: afterwards index `i`
(for `1 ≤ i ≤ _max_files`) holds what index `i-1` held before, the active
base file (index 0) is reopened truncated, and no path outside the indexed
family is touched; the content formerly at index `_max_files` is overwritten. -/
theorem rotate_shifts_backup_chain (st : RotatingFileSinkState) (fs fs' : FileSys)
    (h : rotate st fs = (fs', none)) :
    (∀ i, 1 ≤ i → i ≤ st.max_files →
      fs'.contents (calc_filename st.base_filename i st.extension)
        = fs.contents (calc_filename st.base_filename (i - 1) st.extension)) ∧
    fs'.contents (calc_filename st.base_filename 0 st.extension) = some [] ∧
    (∀ p, (∀ i, i ≤ st.max_files → p ≠ calc_filename st.base_filename i st.extension) →
      fs'.contents p = fs.contents p) :=
  rotate_ok st fs fs' h

/-- A sink state with two backup slots. -/
def stRotW : RotatingFileSinkState :=
  { base_filename := baseW, extension := extW, max_size := 3, max_files := 2,
    current_size := 0 }

/-- A filesystem holding the active file and backup index 1. -/
def fsTwoFiles : FileSys :=
  { contents := fun p =>
      if p = calc_filename baseW 0 extW then some [['a']]
      else if p = calc_filename baseW 1 extW then some [['b']]
      else none
    removeFailCode := fun _ => none
    renameFailCode := fun _ _ => none }

/-- C3 witness: rotating the concrete chain moves index 0 to 1 and 1 to 2 and
truncates the active file. -/
theorem rotate_shifts_backup_chain_witness :
    (rotate stRotW fsTwoFiles).1.contents (calc_filename baseW 1 extW)
        = fsTwoFiles.contents (calc_filename baseW 0 extW) ∧
    (rotate stRotW fsTwoFiles).1.contents (calc_filename baseW 2 extW)
        = fsTwoFiles.contents (calc_filename baseW 1 extW) ∧
    (rotate stRotW fsTwoFiles).1.contents (calc_filename baseW 0 extW) = some [] := by
  have h := rotate_shifts_backup_chain stRotW fsTwoFiles (rotate stRotW fsTwoFiles).1 rfl
  exact ⟨h.1 1 (by decide) (by decide), h.1 2 (by decide) (by decide), h.2.1⟩

/-- C4: a delete or rename failure during `_rotate` surfaces synchronously as
a `RotationError` carrying the OS error code and the path(s) of the failed
step, the pass aborts at that step (the truncating reopen never runs), every
index below the failed step is left exactly as it was, and paths outside the
indexed family are untouched. -/
theorem rotate_failure_aborts (st : RotatingFileSinkState) (fs fs' : FileSys)
    (e : RotationError) (h : rotate st fs = (fs', some e)) :
    ∃ i, 1 ≤ i ∧ i ≤ st.max_files ∧
      ((fs.removeFailCode (calc_filename st.base_filename i st.extension) = some e.osCode ∧
          e.kind = .removeFailed (calc_filename st.base_filename i st.extension)) ∨
        (fs.renameFailCode (calc_filename st.base_filename (i - 1) st.extension)
            (calc_filename st.base_filename i st.extension) = some e.osCode ∧
          e.kind = .renameFailed (calc_filename st.base_filename (i - 1) st.extension)
            (calc_filename st.base_filename i st.extension))) ∧
      (∀ j, j < i → fs'.contents (calc_filename st.base_filename j st.extension)
          = fs.contents (calc_filename st.base_filename j st.extension)) ∧
      (∀ p, (∀ j, j ≤ st.max_files → p ≠ calc_filename st.base_filename j st.extension) →
        fs'.contents p = fs.contents p) :=
  rotate_err st fs fs' e h

/-- A sink state with one backup slot. -/
def stRotW1 : RotatingFileSinkState :=
  { base_filename := baseW, extension := extW, max_size := 3, max_files := 1,
    current_size := 0 }

/-- A filesystem whose backup file exists but cannot be removed (OS code 13). -/
def fsRemoveFails : FileSys :=
  { contents := fun p => if p = calc_filename baseW 1 extW then some [['b']] else none
    removeFailCode := fun p => if p = calc_filename baseW 1 extW then some 13 else none
    renameFailCode := fun _ _ => none }

/-- The error the poisoned removal produces. -/
def eW : RotationError := ⟨.removeFailed (calc_filename baseW 1 extW), 13⟩

/-- C4 witness: the poisoned removal of backup index 1 aborts the concrete
rotation with OS code 13 and that path, leaving every file untouched. -/
theorem rotate_failure_aborts_witness :
    ∃ i, 1 ≤ i ∧ i ≤ stRotW1.max_files ∧
      ((fsRemoveFails.removeFailCode (calc_filename stRotW1.base_filename i stRotW1.extension)
          = some eW.osCode ∧
        eW.kind = .removeFailed (calc_filename stRotW1.base_filename i stRotW1.extension)) ∨
        (fsRemoveFails.renameFailCode
            (calc_filename stRotW1.base_filename (i - 1) stRotW1.extension)
            (calc_filename stRotW1.base_filename i stRotW1.extension) = some eW.osCode ∧
          eW.kind = .renameFailed (calc_filename stRotW1.base_filename (i - 1) stRotW1.extension)
            (calc_filename stRotW1.base_filename i stRotW1.extension))) ∧
      (∀ j, j < i → fsRemoveFails.contents (calc_filename stRotW1.base_filename j stRotW1.extension)
          = fsRemoveFails.contents (calc_filename stRotW1.base_filename j stRotW1.extension)) ∧
      (∀ p, (∀ j, j ≤ stRotW1.max_files →
          p ≠ calc_filename stRotW1.base_filename j stRotW1.extension) →
        fsRemoveFails.contents p = fsRemoveFails.contents p) :=
  rotate_failure_aborts stRotW1 fsRemoveFails fsRemoveFails eW rfl

/-- A sink state with no backup slots and a small limit. -/
def stOversize : RotatingFileSinkState :=
  { base_filename := baseW, extension := extW, max_size := 3, max_files := 0,
    current_size := 0 }

/-- C7 as stated is false: a 5-byte record against a 3-byte limit triggers a
successful rotation decision, yet afterwards `_current_size` (5) still
exceeds `_max_size` (3) — the reset is to the record's length, which nothing
bounds by the limit. -/
theorem rotating_current_size_counterexample :
    (rotating_sink_it stOversize fsNoFiles ['a', 'b', 'c', 'd', 'e']).2 = none ∧
    stOversize.max_size
      < ((rotating_sink_it stOversize fsNoFiles ['a', 'b', 'c', 'd', 'e']).1.1).current_size := by
  decide

/-- C7 amended: immediately after a successful rotation decision,
`_current_size` equals the length of the triggering record; consequently
`_current_size ≤ _max_size` holds whenever that record's length is itself at
most `_max_size`. -/
theorem rotating_rotation_resets_current_size (st : RotatingFileSinkState)
    (fs fs1 : FileSys) (msg : List Char)
    (h1 : st.max_size < st.current_size + msg.length)
    (h2 : rotate st fs = (fs1, none)) :
    ((rotating_sink_it st fs msg).1.1).current_size = msg.length ∧
    (msg.length ≤ st.max_size →
      ((rotating_sink_it st fs msg).1.1).current_size ≤ st.max_size) := by
  have heq : rotating_sink_it st fs msg =
      (({ st with current_size := msg.length },
        fsAppend fs1 (calc_filename st.base_filename 0 st.extension) msg), none) := by
    unfold rotating_sink_it
    rw [if_pos h1, h2]
  rw [heq]
  exact ⟨rfl, fun hle => hle⟩

/-- C7 amended witness: a 3-byte record over an 8-byte total against a 5-byte
limit rotates and leaves `_current_size` = 3 ≤ 5. -/
theorem rotating_rotation_resets_current_size_witness :
    ((rotating_sink_it stC2b fsNoFiles msgAbc).1.1).current_size = msgAbc.length ∧
    (msgAbc.length ≤ stC2b.max_size →
      ((rotating_sink_it stC2b fsNoFiles msgAbc).1.1).current_size ≤ stC2b.max_size) :=
  rotating_rotation_resets_current_size stC2b fsNoFiles
    (fsTruncate fsNoFiles (calc_filename baseW 0 extW)) msgAbc (by decide) rfl

/-- C10: with `_max_files = 0` the descending loop body never executes:
`_rotate` performs no remove and no rename (it succeeds even on a filesystem
where every remove/rename is poisoned to fail), merely reopens the active
base file truncated — discarding its content — and touches no other path. -/
theorem rotate_no_backups_truncates_only (st : RotatingFileSinkState) (fs : FileSys)
    (h : st.max_files = 0) :
    (rotate st fs).2 = none ∧
    ((rotate st fs).1).contents (calc_filename st.base_filename 0 st.extension) = some [] ∧
    (∀ p, p ≠ calc_filename st.base_filename 0 st.extension →
      ((rotate st fs).1).contents p = fs.contents p) := by
  have hrot : rotate st fs
      = (fsTruncate fs (calc_filename st.base_filename 0 st.extension), none) := by
    unfold rotate
    rw [h]
    rfl
  rw [hrot]
  exact ⟨rfl, fsTruncate_same _ _, fun p hp => fsTruncate_other _ _ _ hp⟩

/-- A filesystem where every remove and rename is poisoned to fail. -/
def fsPoisoned : FileSys :=
  { contents := fun p => if p = calc_filename baseW 1 extW then some [['b']] else none
    removeFailCode := fun _ => some 13
    renameFailCode := fun _ _ => some 13 }

/-- C10 witness: rotating with zero backups on the poisoned filesystem still
succeeds, truncates the active file, and leaves the unrelated file intact. -/
theorem rotate_no_backups_truncates_only_witness :
    (rotate stOversize fsPoisoned).2 = none ∧
    ((rotate stOversize fsPoisoned).1).contents (calc_filename baseW 0 extW) = some [] ∧
    ((rotate stOversize fsPoisoned).1).contents (calc_filename baseW 1 extW)
      = fsPoisoned.contents (calc_filename baseW 1 extW) := by
  have h := rotate_no_backups_truncates_only stOversize fsPoisoned rfl
  exact ⟨h.1, h.2.1, h.2.2 _ (by decide)⟩
